import Mathlib

/-!
A shallow embedding of the core of `src/cleanstream-filter.cpp` (the
CleanStream OBS audio filter): the packet-metadata and PCM ring buffers,
the window assembler / segment processor (`process_audio_from_buffer`),
the whisper classifier wrapper (`run_whisper_inference`), the high-pass
pre-emphasis used by the VAD (`high_pass_filter`), and the adaptive
overlap controller.

Modelling conventions:
* PCM samples are rationals (`ℚ`): the claims settled here are about which
  samples are moved, copied, overwritten and published, not about float
  rounding, so exact arithmetic stands in for IEEE floats.  Where the carry
  value of the beep tone (`0.5*sin(...)`) would appear, the model keeps an
  abstract function `beepVal : Nat -> Sample`.
* `std::regex` is abstracted by a compile function
  `compile : String -> Option (String -> Bool)`: `none` models a
  `std::regex_error` thrown by the constructor, `some m` a successfully
  compiled pattern with `m text` the result of `std::regex_search`.
* Machine-integer truncation is kept where the source computes in a fixed
  width: `num_new_frames_from_infos * 1000` is a `uint32_t` product
  (`% 2^32`), the overlap decrement `(uint64_t)overlap_ms - 10` and
  `overlap_ms * sample_rate` are `uint64_t` (`% 2^64`).  The clamp
  `(uint64_t)((float)new_ms * 0.75f)` is modelled as `newMs * 3 / 4`,
  which is the exact value of the float computation for all window
  durations below 2^25/3 milliseconds.
* `gf->frames` and the initial `overlap_frames` are computed by the source
  from the sample rate through float divisions at create time; the model
  carries them as parameters (`frames`, `overlapMs0`) together with the
  integer recomputation `overlap_ms * sample_rate / 1000` used on every
  controller update (lines 569/577).
-/

namespace CleanStream

/-- PCM samples, modelled exactly. -/
abbrev Sample := ℚ

/-- Model of `struct cleanstream_audio_info`: per-packet metadata `{frames, timestamp}`. -/
structure PacketInfo where
  frames : Nat
  timestamp : Nat
deriving DecidableEq, Repr, Inhabited

/-- Mirror of `enum DetectionResult` of the source. -/
inductive DetectionResult where
  | UNKNOWN
  | SILENCE
  | SPEECH
  | FILLER
  | BEEP
deriving DecidableEq, Repr, Inhabited

/-- What the external whisper call does on one window: the context pointer is
null, `whisper_full` throws, returns a nonzero code, or succeeds with the text
of segment 0. -/
inductive AsrOutcome where
  | ctxNull
  | exn
  | err (code : Int)
  | ok (text : String)
deriving DecidableEq, Repr, Inhabited

/-- Static configuration and create-time derived quantities of
`struct cleanstream_data`. -/
structure Params where
  channels : Nat
  sampleRate : Nat
  /-- Value of `gf->frames`: frames per whisper window (source: derived from
  `BUFFER_SIZE_MSEC = 1010` and the sample rate at create time). -/
  frames : Nat
  /-- The initial `overlap_ms` (source: `OVERLAP_SIZE_MSEC = 340`). -/
  overlapMs0 : Nat
  doSilence : Bool
  vadEnabled : Bool
  detectRegex : String
  beepRegex : String
  /-- abstract `std::regex`: `none` = constructor throws `regex_error`. -/
  compile : String → Option (String → Bool)
  /-- abstract value of `0.5f * sinf(2*pi*440*i/sample_rate)` at index `i`. -/
  beepVal : Nat → Sample

/-- Per-channel ring-buffer state: `input_buffers[c]`, the meaningful prefix of
`copy_buffers[c]` (its first `last_num_frames` floats), and `output_buffers[c]`. -/
structure ChanState where
  inputBuf : List Sample
  copyBuf : List Sample
  outputBuf : List Sample
deriving DecidableEq, Repr, Inhabited

/-- The mutable state of the filter that the claims are about. -/
structure CSState where
  chans : List ChanState
  /-- Contents of `info_buffer`: input packet metadata, oldest first. -/
  infoBuffer : List PacketInfo
  /-- Contents of `info_out_buffer`: output packet metadata, oldest first. -/
  infoOutBuffer : List PacketInfo
  /-- Value of `gf->last_num_frames`. -/
  lastNumFrames : Nat
  /-- Value of `gf->overlap_ms`. -/
  overlapMs : Nat
  /-- Value of `gf->overlap_frames`. -/
  overlapFrames : Nat
deriving DecidableEq, Repr, Inhabited

/-- State after `cleanstream_create`. -/
def initState (P : Params) : CSState :=
  { chans := List.replicate P.channels ⟨[], [], []⟩
    infoBuffer := []
    infoOutBuffer := []
    lastNumFrames := 0
    overlapMs := P.overlapMs0
    overlapFrames := P.overlapMs0 * P.sampleRate / 1000 }

/-- One host audio packet handed to `cleanstream_filter_audio`:
planar data, one list of `frames` samples per channel. -/
structure AudioPacket where
  data : List (List Sample)
  frames : Nat
  timestamp : Nat

/-- The input half of `cleanstream_filter_audio` (lines 647-662): append each
channel's samples to `input_buffers[c]` and the packet's `{frames, timestamp}`
to `info_buffer`. -/
def pushPacket (pkt : AudioPacket) (st : CSState) : CSState :=
  { st with
    chans := List.zipWith
      (fun ch d => { ch with inputBuf := ch.inputBuf ++ d }) st.chans pkt.data
    infoBuffer := st.infoBuffer ++ [⟨pkt.frames, pkt.timestamp⟩] }

/-! ## Classifier (`run_whisper_inference`, lines 306-386) -/

/-- Right-trim of trailing whitespace (the `erase(find_if(rbegin...))` idiom,
lines 350-353). -/
def rtrimChars (l : List Char) : List Char :=
  (l.reverse.dropWhile Char.isWhitespace).reverse

/-- Lowercase then right-trim: `text_lower` of lines 347-353. -/
def normalizeText (s : String) : String :=
  ⟨rtrimChars (s.data.map Char.toLower)⟩

/-- Beep half of the regex block (lines 373-379) together with the fall-through
`return DETECTION_RESULT_SPEECH`; a `regex_error` from the beep constructor is
caught outside the block and also falls through to SPEECH. -/
def classifyBeep (P : Params) (t : String) : DetectionResult :=
  if P.beepRegex ≠ "" then
    match P.compile P.beepRegex with
    | none => DetectionResult.SPEECH
    | some m => if m t then DetectionResult.BEEP else DetectionResult.SPEECH
  else DetectionResult.SPEECH

/-- The decision on the normalized text (lines 360-385).  A `regex_error`
thrown while constructing the filler regex propagates past the beep block to
the catch (line 380) and then to `return DETECTION_RESULT_SPEECH`. -/
def classifyText (P : Params) (t : String) : DetectionResult :=
  if t = "" then DetectionResult.SILENCE
  else if P.detectRegex ≠ "" then
    match P.compile P.detectRegex with
    | none => DetectionResult.SPEECH
    | some m => if m t then DetectionResult.FILLER else classifyBeep P t
  else classifyBeep P t

/-- Model of `run_whisper_inference`: null context (lines 313-316), whisper exception
(lines 323-328) and nonzero return (lines 330-332) all yield UNKNOWN; a
successful call classifies the lowercased right-trimmed segment text. -/
def runWhisperInference (P : Params) (o : AsrOutcome) : DetectionResult :=
  match o with
  | AsrOutcome.ctxNull => DetectionResult.UNKNOWN
  | AsrOutcome.exn => DetectionResult.UNKNOWN
  | AsrOutcome.err _ => DetectionResult.UNKNOWN
  | AsrOutcome.ok s => classifyText P (normalizeText s)

/-! ## High-pass pre-emphasis (`high_pass_filter`, lines 112-124)

The loop body is `y = alpha * (y + pcmf32[i] - pcmf32[i-1]); pcmf32[i] = y;`.
For `i ≥ 2` the read of `pcmf32[i-1]` sees the value stored by the previous
iteration, which equals `y`; the model carries both the running `y` and the
stored previous element faithfully. -/

/-- Loop of `high_pass_filter` over the in-place buffer: `y` is the running
accumulator, `prev` the current contents of `pcmf32[i-1]` (already
overwritten for every iteration after the first). -/
def highPassAux (alpha : ℚ) (y prev : ℚ) : List ℚ → List ℚ
  | [] => []
  | x :: rest =>
    let yn := alpha * (y + x - prev)
    yn :: highPassAux alpha yn yn rest

/-- Model of `high_pass_filter` with coefficient `alpha = dt / (rc + dt)`: the first
sample is left in place, the rest are rewritten by the loop. -/
def high_pass_filter (alpha : ℚ) : List ℚ → List ℚ
  | [] => []
  | x0 :: rest => x0 :: highPassAux alpha x0 x0 rest

/-- Modelled from the spec (section 4.3 / claim C4): the reference first-order
recurrence `y[i] = alpha * (y[i-1] + x[i] - x[i-1])` over the ORIGINAL samples
`x`, first sample passed through. -/
def highPassSpecAux (alpha : ℚ) (y xprev : ℚ) : List ℚ → List ℚ
  | [] => []
  | x :: rest =>
    let yn := alpha * (y + x - xprev)
    yn :: highPassSpecAux alpha yn x rest

/-- Modelled from the spec: the whole reference filter of claim C4. -/
def highPassSpec (alpha : ℚ) : List ℚ → List ℚ
  | [] => []
  | x0 :: rest => x0 :: highPassSpecAux alpha x0 x0 rest

/-! ## Window assembly (`process_audio_from_buffer`, lines 388-581) -/

/-- The info-draining loop (lines 406-424).  Pops packets accumulating
`acc` (= `num_new_frames_from_infos`) and recording `ts`
(= `start_timestamp`, set whenever it is still 0, *before* the excess check);
when consuming the next packet would push `acc` past `needed`, that packet is
pushed back to the front unconsumed and the loop stops.  Returns
`(num_new_frames, start_timestamp, remaining info_buffer)`. -/
def drainInfos (needed : Nat) : List PacketInfo → Nat → Nat → Nat × Nat × List PacketInfo
  | [], acc, ts => (acc, ts, [])
  | p :: rest, acc, ts =>
    let acc2 := acc + p.frames
    let ts2 := if ts = 0 then p.timestamp else ts
    if needed < acc2 then (acc, ts2, p :: rest)
    else drainInfos needed rest acc2 ts2

/-- Computation of `how_many_frames_needed` (lines 399-402). -/
def neededFrames (P : Params) (st : CSState) : Nat :=
  if st.lastNumFrames = 0 then P.frames else P.frames - st.overlapFrames

/-- Per-channel buffer assembly (lines 427-443): move the tail
`overlap_frames` samples of the committed region of `copy_buffers[c]` to its
head, then pop `numNew` new samples behind them; on the very first window just
pop `numNew` samples. -/
def chanAssemble (lastNum overlap numNew : Nat) (ch : ChanState) : ChanState :=
  if 0 < lastNum then
    { ch with
      copyBuf := (ch.copyBuf.drop (lastNum - overlap)).take overlap ++ ch.inputBuf.take numNew
      inputBuf := ch.inputBuf.drop numNew }
  else
    { ch with
      copyBuf := ch.inputBuf.take numNew
      inputBuf := ch.inputBuf.drop numNew }

/-- The FILLER / BEEP replacement on the output snapshot
(lines 489-530): with `do_silence` on, indices `0 ≤ i < numNew` of
`copy_output_buffers[c]` are overwritten (with `0`, resp. the beep tone);
every other classification leaves the snapshot alone. -/
def applyTransform (P : Params) (res : DetectionResult) (numNew : Nat)
    (snap : List Sample) : List Sample :=
  match res with
  | DetectionResult.FILLER =>
    if P.doSilence then snap.mapIdx (fun i x => if i < numNew then 0 else x) else snap
  | DetectionResult.BEEP =>
    if P.doSilence then snap.mapIdx (fun i x => if i < numNew then P.beepVal i else x) else snap
  | _ => snap

/-- The adaptive-overlap controller (lines 566-580), returning the new
`(overlap_ms, overlap_frames)`.  The decrement is a `uint64_t` subtraction
(wraps below 10), the recomputation of `overlap_frames` is
`overlap_ms * sample_rate / 1000` in `size_t`. -/
def updateOverlap (sampleRate overlapMs overlapFrames newMs duration : Nat)
    (skipped : Bool) : Nat × Nat :=
  if newMs < duration then
    let o := Nat.max ((overlapMs + (2 ^ 64 - 10)) % 2 ^ 64) 100
    (o, o * sampleRate % 2 ^ 64 / 1000)
  else if !skipped then
    let o := Nat.min (overlapMs + 10) (newMs * 3 / 4)
    (o, o * sampleRate % 2 ^ 64 / 1000)
  else (overlapMs, overlapFrames)

/-- One invocation of `process_audio_from_buffer`, with the classification
`res` factored out (the source computes it as `run_whisper_inference` on the
resampled window; the result is consulted only when inference was not
skipped).  `duration` is the measured wall-clock milliseconds and `vadSpeech`
the result of `vad_simple`. -/
def windowStepC (P : Params) (duration : Nat) (vadSpeech : Bool)
    (res : DetectionResult) (st : CSState) : CSState :=
  let needed := neededFrames P st
  let d := drainInfos needed st.infoBuffer 0 0
  let numNew := d.1
  let startTs := d.2.1
  let newLast := if 0 < st.lastNumFrames then numNew + st.overlapFrames else numNew
  let skipped := P.vadEnabled && !vadSpeech
  let chans2 := st.chans.map (fun ch =>
    let ch2 := chanAssemble st.lastNumFrames st.overlapFrames numNew ch
    let out := if skipped then ch2.copyBuf else applyTransform P res numNew ch2.copyBuf
    { ch2 with outputBuf := ch2.outputBuf ++ out.take numNew })
  let newMs := numNew * 1000 % 2 ^ 32 / P.sampleRate
  let ov2 := updateOverlap P.sampleRate st.overlapMs st.overlapFrames newMs duration skipped
  { chans := chans2
    infoBuffer := d.2.2
    infoOutBuffer := st.infoOutBuffer ++ [⟨numNew, startTs⟩]
    lastNumFrames := newLast
    overlapMs := ov2.1
    overlapFrames := ov2.2 }

/-- Events of a push/pull trace: host pushes of audio packets interleaved with
worker invocations of the segment processor.  A window event carries the
environment the source reads from outside the modelled state: the measured
duration, the `vad_simple` verdict and the whisper outcome. -/
inductive Event where
  | push (pkt : AudioPacket)
  | window (duration : Nat) (vadSpeech : Bool) (asr : AsrOutcome)

/-- Apply one event. -/
def applyEvent (P : Params) (st : CSState) : Event → CSState
  | Event.push pkt => pushPacket pkt st
  | Event.window d v a => windowStepC P d v (runWhisperInference P a) st

/-- Run a trace. -/
def runEvents (P : Params) (st : CSState) : List Event → CSState
  | [] => st
  | e :: r => runEvents P (applyEvent P st e) r

/-- All states a trace passes through, initial state included. -/
def runStates (P : Params) (st : CSState) : List Event → List CSState
  | [] => [st]
  | e :: r => st :: runStates P (applyEvent P st e) r

/-- Channel `c` of a state. -/
def chanOf (st : CSState) (c : Nat) : ChanState :=
  st.chans.getD c default

/-! ## Specification-side characterizations

The following definitions do not model source code; they are the vocabulary in
which the claims (and their amendments) are stated, to be compared with the
model above. -/

/-- Total frames described by a run of packet metadata. -/
def sumFrames (l : List PacketInfo) : Nat :=
  (l.map PacketInfo.frames).sum

/-- How many packets the draining loop consumes: the longest prefix whose
running frame total stays within `needed`, starting from `acc`. -/
def consumeCount (needed : Nat) : List PacketInfo → Nat → Nat
  | [], _ => 0
  | p :: rest, acc =>
    if needed < acc + p.frames then 0
    else consumeCount needed rest (acc + p.frames) + 1

/-- The first nonzero timestamp in a metadata list (0 if none). -/
def firstNonzeroTs : List PacketInfo → Nat
  | [] => 0
  | p :: rest => if p.timestamp ≠ 0 then p.timestamp else firstNonzeroTs rest

/-- Well-formedness of one pushed packet: planar data with one list of exactly
`frames` samples per configured channel. -/
def pushOK (P : Params) (pkt : AudioPacket) : Bool :=
  pkt.data.length == P.channels && pkt.data.all (fun d => d.length == pkt.frames)

/-- Trace check for claim C1: packets are well-formed, every window is invoked
with the committed overlap not exceeding the committed window
(`overlap_frames ≤ last_num_frames` unless this is the first window), and the
ASR is stubbed so that every window classifies as SILENCE. -/
def silentTraceOK (P : Params) : List Event → CSState → Bool
  | [], _ => true
  | Event.push pkt :: r, st => pushOK P pkt && silentTraceOK P r (pushPacket pkt st)
  | Event.window d v a :: r, st =>
    (decide (st.lastNumFrames = 0 ∨ st.overlapFrames ≤ st.lastNumFrames))
      && (runWhisperInference P a == DetectionResult.SILENCE)
      && silentTraceOK P r (applyEvent P st (Event.window d v a))

/-- The `new_frames_from_infos_ms` a window invocation would compute in state
`st` (uint32 product, then integer division by the sample rate). -/
def newMsOf (P : Params) (st : CSState) : Nat :=
  (drainInfos (neededFrames P st) st.infoBuffer 0 0).1 * 1000 % 2 ^ 32 / P.sampleRate

/-- Trace check for claim C7: every window of the trace carries at least
134 ms of new data (so that 75% of it stays at or above 100 ms). -/
def wideWindowsTrace (P : Params) : List Event → CSState → Bool
  | [], _ => true
  | Event.push pkt :: r, st => wideWindowsTrace P r (pushPacket pkt st)
  | Event.window d v a :: r, st =>
    decide (134 ≤ newMsOf P st)
      && wideWindowsTrace P r (applyEvent P st (Event.window d v a))

/-- Modelled from the spec (claim C1, amended): the PCM a trace is expected to
publish on channel `c`, described as in-order contiguous slices of the input
stream.  `fed` is the concatenation of all samples pushed so far on channel
`c` and `consumed` how many of them the segment processor has consumed; a
window that consumes `numNew` fresh frames publishes the input slice starting
`overlap_frames` before its fresh data (`0` before it on the first window). -/
def expectedChanOut (P : Params) (c : Nat) :
    List Event → CSState → List Sample → Nat → List Sample
  | [], _, _, _ => []
  | Event.push pkt :: r, st, fed, consumed =>
    expectedChanOut P c r (pushPacket pkt st) (fed ++ pkt.data.getD c []) consumed
  | Event.window d v a :: r, st, fed, consumed =>
    let numNew := (drainInfos (neededFrames P st) st.infoBuffer 0 0).1
    let ov := if st.lastNumFrames = 0 then 0 else st.overlapFrames
    (fed.drop (consumed - ov)).take numNew
      ++ expectedChanOut P c r (applyEvent P st (Event.window d v a)) fed (consumed + numNew)

/-! ## Concrete instances used by counterexamples and witnesses

All of the traces below respect the worker's firing condition
(`input_buffers[0].size >= gf->frames * sizeof(float)` at every window
invocation), so they are reachable executions of the source. -/

/-- A 1-channel configuration with a 4-frame window and 1 ms initial overlap
(at 1 kHz: 1 overlap frame), ASR stubbed to SILENCE via empty text. -/
def cx1P : Params :=
  ⟨1, 1000, 4, 1, true, false, "", "", fun _ => none, fun _ => 0⟩

/-- Two windows: the first consumes samples 10..40; the controller raises the
overlap to 3 frames; the second consumes sample 50 (the 4-frame packet behind
it is pushed back) and publishes starting 3 frames before it. -/
def cx1Trace : List Event :=
  [ Event.push ⟨[[10, 20, 30, 40]], 4, 1⟩,
    Event.window 0 true (AsrOutcome.ok ""),
    Event.push ⟨[[50]], 1, 9⟩,
    Event.push ⟨[[60, 70, 80, 90]], 4, 10⟩,
    Event.window 0 true (AsrOutcome.ok "") ]

/-- A 1-channel configuration with a 5-frame window and no overlap. -/
def cx2P : Params :=
  ⟨1, 1000, 5, 0, true, false, "", "", fun _ => none, fun _ => 0⟩

/-- One window assembled from a packet with timestamp 0 followed by a packet
with timestamp 5, both fully consumed. -/
def cx2Trace : List Event :=
  [ Event.push ⟨[[1, 2]], 2, 0⟩,
    Event.push ⟨[[3, 4, 5]], 3, 5⟩,
    Event.window 0 true (AsrOutcome.ok "") ]

/-- Like `cx1P` but with a filler regex that always matches. -/
def cx3P : Params :=
  ⟨1, 1000, 4, 1, true, false, "f", "", fun _ => some (fun _ => true), fun _ => 0⟩

/-- First window SILENCE (publishes 10..40 untouched); second window FILLER
with `overlap_frames = 3`, `num_new = 1`, snapshot `[2,3,4,5]`. -/
def cx3Trace : List Event :=
  [ Event.push ⟨[[1, 2, 3, 4]], 4, 1⟩,
    Event.window 0 true (AsrOutcome.ok ""),
    Event.push ⟨[[5]], 1, 9⟩,
    Event.push ⟨[[6, 7, 8, 9]], 4, 10⟩,
    Event.window 0 true (AsrOutcome.ok "f") ]

/-- A concrete successfully-compiled matcher. -/
def w5match : String → Bool := fun t => t == "uh"

/-- Configuration whose two regexes both compile to `w5match`. -/
def w5P : Params :=
  ⟨1, 16000, 16160, 340, true, true, "uh", "beep", fun _ => some w5match, fun _ => 0⟩

/-- A filler pattern whose compilation fails while the beep pattern compiles
and matches the transcribed text. -/
def cx6P : Params :=
  ⟨1, 1000, 4, 1, true, false, "(", "x",
    fun p => if p = "(" then none else some (fun t => t == "x"), fun _ => 0⟩

/-- Whole-source defaults: 1010-frame window at 1 kHz, initial overlap 340 ms. -/
def cx7P : Params :=
  ⟨1, 1000, 1010, 340, true, false, "", "", fun _ => none, fun _ => 0⟩

/-- After the first window the controller raises the overlap to 350 ms; the
second window drains only 120 new frames (the following 600-frame packet
would overshoot `needed = 660` and is pushed back), so the increase clamp
`0.75 * 120 ms = 90 ms` drags `overlap_ms` below 100. -/
def cx7Trace : List Event :=
  [ Event.push ⟨[List.replicate 1010 0], 1010, 1⟩,
    Event.window 0 true (AsrOutcome.ok "x"),
    Event.push ⟨[List.replicate 120 0], 120, 2⟩,
    Event.push ⟨[List.replicate 600 0], 600, 3⟩,
    Event.push ⟨[List.replicate 600 0], 600, 4⟩,
    Event.window 0 true (AsrOutcome.ok "x") ]

/-- The prefix of `cx7Trace` with one full-width window (1010 ms of new data). -/
def w7Trace : List Event :=
  [ Event.push ⟨[List.replicate 1010 0], 1010, 1⟩,
    Event.window 0 true (AsrOutcome.ok "x") ]

/-! ## Helper lemmas -/

lemma getD_map_of_lt {α β : Type _} (f : α → β) (l : List α) (c : Nat) (d : α) (d2 : β)
    (h : c < l.length) : (l.map f).getD c d2 = f (l.getD c d) := by
  rw [List.getD_eq_getElem _ _ (by simpa using h), List.getD_eq_getElem _ _ h,
    List.getElem_map]

lemma getD_zipWith_of_lt {α β γ : Type _} (f : α → β → γ) (l1 : List α) (l2 : List β)
    (c : Nat) (d1 : α) (d2 : β) (d3 : γ) (h1 : c < l1.length) (h2 : c < l2.length) :
    (List.zipWith f l1 l2).getD c d3 = f (l1.getD c d1) (l2.getD c d2) := by
  have hz : c < (List.zipWith f l1 l2).length := by
    rw [List.length_zipWith]; exact lt_min h1 h2
  rw [List.getD_eq_getElem _ _ hz, List.getD_eq_getElem _ _ h1, List.getD_eq_getElem _ _ h2,
    List.getElem_zipWith]

lemma sumFrames_append (l1 l2 : List PacketInfo) :
    sumFrames (l1 ++ l2) = sumFrames l1 + sumFrames l2 := by
  simp [sumFrames]

lemma sumFrames_take_add_drop (l : List PacketInfo) (k : Nat) :
    sumFrames (l.take k) + sumFrames (l.drop k) = sumFrames l := by
  rw [← sumFrames_append, List.take_append_drop]

lemma drainInfos_frames (needed : Nat) :
    ∀ (l : List PacketInfo) (acc ts : Nat),
      (drainInfos needed l acc ts).1 = acc + sumFrames (l.take (consumeCount needed l acc))
  | [], acc, ts => by simp [drainInfos, consumeCount, sumFrames]
  | p :: rest, acc, ts => by
    simp only [drainInfos, consumeCount]
    split
    · simp [sumFrames]
    · rw [drainInfos_frames needed rest (acc + p.frames)]
      simp [sumFrames, List.take_succ_cons]
      omega

lemma drainInfos_rest (needed : Nat) :
    ∀ (l : List PacketInfo) (acc ts : Nat),
      (drainInfos needed l acc ts).2.2 = l.drop (consumeCount needed l acc)
  | [], acc, ts => by simp [drainInfos, consumeCount]
  | p :: rest, acc, ts => by
    simp only [drainInfos, consumeCount]
    split
    · simp
    · rw [drainInfos_rest needed rest (acc + p.frames)]
      simp

lemma drainInfos_ts (needed : Nat) :
    ∀ (l : List PacketInfo) (acc ts : Nat),
      (drainInfos needed l acc ts).2.1
        = if ts = 0 then firstNonzeroTs (l.take (consumeCount needed l acc + 1)) else ts
  | [], acc, ts => by
    simp only [drainInfos, consumeCount, List.take_nil]
    split <;> simp_all [firstNonzeroTs]
  | p :: rest, acc, ts => by
    simp only [drainInfos, consumeCount]
    split
    · by_cases hts : ts = 0
      · subst hts
        by_cases hp : p.timestamp = 0 <;>
          simp [hp, firstNonzeroTs, List.take_succ_cons]
      · simp [hts]
    · rw [drainInfos_ts needed rest (acc + p.frames)]
      by_cases hts : ts = 0
      · subst hts
        by_cases hp : p.timestamp = 0
        · simp [hp, firstNonzeroTs, List.take_succ_cons]
        · simp [hp, firstNonzeroTs, List.take_succ_cons]
      · simp [hts]

lemma drainInfos_le (needed : Nat) :
    ∀ (l : List PacketInfo) (acc ts : Nat), acc ≤ needed →
      (drainInfos needed l acc ts).1 ≤ needed
  | [], acc, ts, h => by simpa [drainInfos] using h
  | p :: rest, acc, ts, h => by
    simp only [drainInfos]
    split
    · exact h
    · exact drainInfos_le needed rest (acc + p.frames) _ (by omega)

lemma drainInfos_stop (needed : Nat) :
    ∀ (l : List PacketInfo) (acc : Nat) (p : PacketInfo),
      (l.drop (consumeCount needed l acc)).head? = some p →
      needed < acc + sumFrames (l.take (consumeCount needed l acc)) + p.frames
  | [], acc, p, h => by simp [consumeCount] at h
  | q :: rest, acc, p, h => by
    by_cases hcond : needed < acc + q.frames
    · simp only [consumeCount, if_pos hcond, List.drop_zero, List.head?_cons,
        Option.some.injEq] at h
      subst h
      simp only [consumeCount, if_pos hcond, List.take_zero, sumFrames, List.map_nil,
        List.sum_nil, Nat.add_zero]
      omega
    · have h2 : (rest.drop (consumeCount needed rest (acc + q.frames))).head? = some p := by
        simpa [consumeCount, if_neg hcond, List.drop_succ_cons] using h
      have hrec := drainInfos_stop needed rest (acc + q.frames) p h2
      simp only [consumeCount, if_neg hcond, List.take_succ_cons, sumFrames, List.map_cons,
        List.sum_cons]
      simp only [sumFrames] at hrec
      omega

lemma mapIdx_id {α : Type _} : ∀ (l : List α), (l.mapIdx fun _ x => x) = l
  | [] => by simp
  | x :: xs => by
    rw [List.mapIdx_cons]
    exact congrArg (x :: ·) (mapIdx_id xs)

lemma mapIdx_ite_lt (f : Nat → Sample) (l : List Sample) (n : Nat) :
    (l.mapIdx fun i x => if i < n then f i else x)
      = ((List.range (min n l.length)).map f) ++ l.drop n := by
  induction l generalizing f n with
  | nil => simp
  | cons x xs ih =>
    rw [List.mapIdx_cons]
    cases n with
    | zero =>
      simp only [Nat.not_lt_zero, if_false, Nat.zero_min, List.range_zero, List.map_nil,
        List.nil_append, List.drop_zero]
      exact congrArg (x :: ·) (mapIdx_id xs)
    | succ m =>
      simp only [Nat.zero_lt_succ, if_true, Nat.add_lt_add_iff_right]
      rw [ih (fun i => f (i + 1)) m]
      simp only [List.length_cons, Nat.succ_min_succ, List.range_succ_eq_map,
        List.map_cons, List.map_map, List.drop_succ_cons, List.cons_append]
      rfl

/-- The inductive invariant tying channel `c` of the concrete state to the
abstract view used by claim C1: `fed` is the concatenation of all samples
pushed so far on channel `c` and `consumed` how many of them the segment
processor has drained; the committed region of the copy buffer is the last
`last_num_frames` consumed samples. -/
structure ChanInv (P : Params) (st : CSState) (c : Nat) (fed : List Sample)
    (consumed : Nat) : Prop where
  chansLen : st.chans.length = P.channels
  inputEq : (chanOf st c).inputBuf = fed.drop consumed
  copyEq : (chanOf st c).copyBuf = (fed.take consumed).drop (consumed - st.lastNumFrames)
  lastLe : st.lastNumFrames ≤ consumed
  consumedLe : consumed ≤ fed.length
  metaSum : sumFrames st.infoBuffer = fed.length - consumed

lemma chanOf_init (P : Params) (c : Nat) (hc : c < P.channels) :
    chanOf (initState P) c = ⟨[], [], []⟩ := by
  have h : c < (List.replicate P.channels (⟨[], [], []⟩ : ChanState)).length := by
    simpa using hc
  simp only [chanOf, initState]
  rw [List.getD_eq_getElem _ _ h, List.getElem_replicate]

lemma chanInv_init (P : Params) (c : Nat) (hc : c < P.channels) :
    ChanInv P (initState P) c [] 0 := by
  have h := chanOf_init P c hc
  exact ⟨by simp [initState], by simp [h], by simp [h], by simp [initState],
    by simp, by simp [initState, sumFrames]⟩

lemma chanInv_push (P : Params) (st : CSState) (c : Nat) (fed : List Sample) (S : Nat)
    (pkt : AudioPacket) (hc : c < P.channels)
    (inv : ChanInv P st c fed S) (hok : pushOK P pkt = true) :
    ChanInv P (pushPacket pkt st) c (fed ++ pkt.data.getD c []) S ∧
      (chanOf (pushPacket pkt st) c).outputBuf = (chanOf st c).outputBuf := by
  simp only [pushOK, Bool.and_eq_true, beq_iff_eq, List.all_eq_true] at hok
  obtain ⟨hlen, hall⟩ := hok
  have hcd : c < pkt.data.length := by omega
  have hcc : c < st.chans.length := by rw [inv.chansLen]; exact hc
  have hdlen : (pkt.data.getD c []).length = pkt.frames := by
    rw [List.getD_eq_getElem _ _ hcd]
    exact hall _ (List.getElem_mem hcd)
  have hget : chanOf (pushPacket pkt st) c
      = { chanOf st c with inputBuf := (chanOf st c).inputBuf ++ pkt.data.getD c [] } := by
    simp only [chanOf, pushPacket]
    exact getD_zipWith_of_lt _ st.chans pkt.data c default [] default hcc hcd
  refine ⟨⟨?_, ?_, ?_, ?_, ?_, ?_⟩, ?_⟩
  · simp only [pushPacket, List.length_zipWith, hlen, inv.chansLen]
    exact Nat.min_self _
  · rw [hget]
    simp only
    rw [inv.inputEq, List.drop_append_of_le_length inv.consumedLe]
  · rw [hget]
    simp only [pushPacket]
    rw [inv.copyEq, List.take_append_of_le_length inv.consumedLe]
  · simpa [pushPacket] using inv.lastLe
  · calc S ≤ fed.length := inv.consumedLe
      _ ≤ (fed ++ pkt.data.getD c []).length := by simp
  · simp only [pushPacket, sumFrames_append, inv.metaSum, List.length_append, hdlen]
    have : sumFrames [(⟨pkt.frames, pkt.timestamp⟩ : PacketInfo)] = pkt.frames := by
      simp [sumFrames]
    rw [this]
    have := inv.consumedLe
    omega
  · rw [hget]

lemma slice_shift (fed : List Sample) (S n k : Nat) (hS : S ≤ fed.length) (hk : k ≤ S) :
    (fed.take (S + n)).drop (S - k)
      = (fed.take S).drop (S - k) ++ (fed.drop S).take n := by
  rw [List.take_add, List.drop_append_of_le_length]
  rw [List.length_take]
  omega

lemma slice_take (fed : List Sample) (S n v : Nat) (hv : v ≤ S) :
    ((fed.take (S + n)).drop (S - v)).take n = (fed.drop (S - v)).take n := by
  rw [List.drop_take, List.take_take]
  congr 1
  omega

/-- The per-channel effect of the window assembly, against the abstract view:
the committed copy buffer after assembly is the input slice ending at
`S + n` and extending `overlap` frames back before the fresh data. -/
lemma chanAssemble_abstract (fed : List Sample) (S L v n : Nat) (ch : ChanState)
    (hin : ch.inputBuf = fed.drop S) (hcp : ch.copyBuf = (fed.take S).drop (S - L))
    (hLS : L ≤ S) (hS : S ≤ fed.length)
    (hv : L = 0 ∨ v ≤ L) :
    (chanAssemble L v n ch).copyBuf
        = (fed.take (S + n)).drop (S - (if L = 0 then 0 else v)) ∧
      (chanAssemble L v n ch).inputBuf = fed.drop (S + n) ∧
      (chanAssemble L v n ch).outputBuf = ch.outputBuf := by
  by_cases hL : L = 0
  · rw [chanAssemble, if_neg (by omega)]
    refine ⟨?_, ?_, rfl⟩
    · simp only [hin, if_pos hL, Nat.sub_zero, List.drop_take]
      congr 1
      omega
    · rw [hin, List.drop_drop]
  · have hvL : v ≤ L := hv.resolve_left hL
    rw [chanAssemble, if_pos (by omega)]
    refine ⟨?_, ?_, rfl⟩
    · have step1 : ch.copyBuf.drop (L - v) = (fed.take S).drop (S - v) := by
        rw [hcp, List.drop_drop]
        congr 1
        omega
      have hlen1 : ((fed.take S).drop (S - v)).length = v := by
        rw [List.length_drop, List.length_take]
        omega
      have step2 : (ch.copyBuf.drop (L - v)).take v = (fed.take S).drop (S - v) := by
        rw [step1]
        exact List.take_of_length_le (by omega)
      rw [step2, hin, if_neg hL, slice_shift fed S n v hS (by omega)]
    · rw [hin, List.drop_drop]

lemma chanInv_window (P : Params) (st : CSState) (c : Nat) (fed : List Sample) (S : Nat)
    (dur : Nat) (vsp : Bool) (res : DetectionResult) (hc : c < P.channels)
    (inv : ChanInv P st c fed S)
    (hov : st.lastNumFrames = 0 ∨ st.overlapFrames ≤ st.lastNumFrames)
    (hres : res = DetectionResult.SILENCE) :
    ChanInv P (windowStepC P dur vsp res st) c fed
        (S + (drainInfos (neededFrames P st) st.infoBuffer 0 0).1) ∧
      (chanOf (windowStepC P dur vsp res st) c).outputBuf
        = (chanOf st c).outputBuf
          ++ (fed.drop (S - (if st.lastNumFrames = 0 then 0 else st.overlapFrames))).take
              (drainInfos (neededFrames P st) st.infoBuffer 0 0).1 := by
  subst hres
  have hcc : c < st.chans.length := by rw [inv.chansLen]; exact hc
  -- abbreviations (plain terms, so that they match the unfolded step)
  have hn_sum : (drainInfos (neededFrames P st) st.infoBuffer 0 0).1
      ≤ sumFrames st.infoBuffer := by
    rw [drainInfos_frames]
    have := sumFrames_take_add_drop st.infoBuffer
      (consumeCount (neededFrames P st) st.infoBuffer 0)
    omega
  set n := (drainInfos (neededFrames P st) st.infoBuffer 0 0).1 with hn
  set veff := (if st.lastNumFrames = 0 then 0 else st.overlapFrames) with hveff
  have hveffS : veff ≤ S := by
    rw [hveff]
    rcases hov with h | h
    · simp [h]
    · split
      · omega
      · exact le_trans h inv.lastLe
  have hSn : S + n ≤ fed.length := by
    have := inv.metaSum
    have := inv.consumedLe
    omega
  have hrest_sum : sumFrames (drainInfos (neededFrames P st) st.infoBuffer 0 0).2.2
      = fed.length - (S + n) := by
    rw [drainInfos_rest]
    have h1 := sumFrames_take_add_drop st.infoBuffer
      (consumeCount (neededFrames P st) st.infoBuffer 0)
    have h2 : n = sumFrames
        (st.infoBuffer.take (consumeCount (neededFrames P st) st.infoBuffer 0)) := by
      rw [hn, drainInfos_frames]
      omega
    have := inv.metaSum
    omega
  obtain ⟨habsC, habsI, habsO⟩ :=
    chanAssemble_abstract fed S st.lastNumFrames st.overlapFrames n (chanOf st c)
      inv.inputEq inv.copyEq inv.lastLe inv.consumedLe hov
  -- project the per-channel map of the step
  have hget : chanOf (windowStepC P dur vsp DetectionResult.SILENCE st) c
      = (fun ch =>
          let ch2 := chanAssemble st.lastNumFrames st.overlapFrames n ch
          { ch2 with outputBuf := ch2.outputBuf
              ++ (if P.vadEnabled && !vsp then ch2.copyBuf
                  else applyTransform P DetectionResult.SILENCE n ch2.copyBuf).take n })
        (chanOf st c) := by
    simp only [chanOf, windowStepC]
    exact getD_map_of_lt _ st.chans c default default hcc
  have htr : ∀ snap : List Sample,
      (if P.vadEnabled && !vsp then snap
        else applyTransform P DetectionResult.SILENCE n snap) = snap := by
    intro snap
    have h : applyTransform P DetectionResult.SILENCE n snap = snap := rfl
    rw [h, ite_self]
  have hco : chanOf (windowStepC P dur vsp DetectionResult.SILENCE st) c
      = { inputBuf := fed.drop (S + n)
          copyBuf := (fed.take (S + n)).drop (S - veff)
          outputBuf := (chanOf st c).outputBuf
            ++ ((fed.take (S + n)).drop (S - veff)).take n } := by
    rw [hget]
    simp only [htr, habsC, habsI, habsO]
  have hlast : (windowStepC P dur vsp DetectionResult.SILENCE st).lastNumFrames
      = n + veff := by
    simp only [windowStepC, hveff]
    rcases Nat.eq_zero_or_pos st.lastNumFrames with h | h
    · simp [h]
    · rw [if_pos h, if_neg (by omega)]
  refine ⟨⟨?_, ?_, ?_, ?_, ?_, ?_⟩, ?_⟩
  · simp only [windowStepC, List.length_map, inv.chansLen]
  · rw [hco]
  · rw [hco, hlast]
    simp only
    congr 1
    omega
  · rw [hlast]
    omega
  · exact hSn
  · simpa only [windowStepC] using hrest_sum
  · rw [hco]
    simp only
    rw [slice_take fed S n veff hveffS]


/-- Main refinement lemma behind claim C1: on every well-formed SILENCE-stubbed
trace, the output a run publishes on channel `c` is exactly the sequence of
input slices predicted by `expectedChanOut`. -/
lemma runEvents_outputBuf (P : Params) (c : Nat) (hc : c < P.channels) :
    ∀ (t : List Event) (st : CSState) (fed : List Sample) (S : Nat),
      ChanInv P st c fed S → silentTraceOK P t st = true →
      (chanOf (runEvents P st t) c).outputBuf
        = (chanOf st c).outputBuf ++ expectedChanOut P c t st fed S
  | [], st, fed, S, inv, hok => by simp [runEvents, expectedChanOut]
  | Event.push pkt :: r, st, fed, S, inv, hok => by
    simp only [silentTraceOK, Bool.and_eq_true] at hok
    obtain ⟨hpk, hrest⟩ := hok
    obtain ⟨inv2, hout⟩ := chanInv_push P st c fed S pkt hc inv hpk
    simp only [runEvents, applyEvent, expectedChanOut]
    rw [runEvents_outputBuf P c hc r _ _ _ inv2 hrest, hout]
  | Event.window d v a :: r, st, fed, S, inv, hok => by
    simp only [silentTraceOK, Bool.and_eq_true, decide_eq_true_eq, beq_iff_eq] at hok
    obtain ⟨⟨hov, hres⟩, hrest⟩ := hok
    obtain ⟨inv2, hout⟩ := chanInv_window P st c fed S d v _ hc inv hov hres
    simp only [runEvents, applyEvent, expectedChanOut]
    rw [runEvents_outputBuf P c hc r _ _ _ inv2 hrest, hout, List.append_assoc]

/-- Membership of the final state in the run's state list. -/
lemma runEvents_mem_runStates (P : Params) :
    ∀ (t : List Event) (st : CSState), runEvents P st t ∈ runStates P st t
  | [], st => by simp [runEvents, runStates]
  | e :: r, st => by
    simp only [runEvents, runStates, List.mem_cons]
    exact Or.inr (runEvents_mem_runStates P r (applyEvent P st e))

/-! ## Claim theorems -/

/-- Claim C1, as stated, is false: with ASR stubbed to SILENCE the output is
not an exactly-once bit-identical copy of the consumed input.  On this
reachable trace the two windows consume samples `10..50` but publish
`[10,20,30,40,20]`: the second window re-emits sample 20 from the overlap
head of its snapshot, and the consumed sample 50 is not yet published. -/
theorem claim1_counterexample :
    silentTraceOK cx1P cx1Trace (initState cx1P) = true ∧
      (chanOf (runEvents cx1P (initState cx1P) cx1Trace) 0).outputBuf
        = [10, 20, 30, 40, 20] ∧
      (chanOf (runEvents cx1P (initState cx1P) cx1Trace) 0).inputBuf
        = [60, 70, 80, 90] ∧
      (chanOf (runEvents cx1P (initState cx1P) cx1Trace) 0).outputBuf
        ≠ [10, 20, 30, 40, 50] := by
  decide

/-- Claim C1 (amended): with ASR stubbed to SILENCE, each window publishes a
contiguous, in-order, bit-identical slice of the input stream, but the slice
starts `overlap_frames` *before* the window's fresh data (at the consumed
position itself on the first window); consecutive published slices therefore
overlap by the current `overlap_frames` rather than forming an exactly-once
copy.  `expectedChanOut` is the sequence of these slices. -/
theorem claim1_amended (P : Params) (t : List Event) (c : Nat)
    (hc : c < P.channels) (h : silentTraceOK P t (initState P) = true) :
    (chanOf (runEvents P (initState P) t) c).outputBuf
      = expectedChanOut P c t (initState P) [] 0 := by
  have hrun := runEvents_outputBuf P c hc t (initState P) [] 0 (chanInv_init P c hc) h
  rw [hrun, chanOf_init P c hc]
  rfl

/-- Witness for the amended claim C1 on the concrete two-window trace. -/
theorem claim1_witness :
    silentTraceOK cx1P cx1Trace (initState cx1P) = true ∧
      (chanOf (runEvents cx1P (initState cx1P) cx1Trace) 0).outputBuf
        = expectedChanOut cx1P 0 cx1Trace (initState cx1P) [] 0 :=
  ⟨by decide, claim1_amended cx1P cx1Trace 0 (by decide) (by decide)⟩

/-- Claim C2, as stated, is false when the first contributing packet has
timestamp 0: on this reachable trace the window's first packet is
`{frames 2, timestamp 0}`, both packets are fully consumed (the input
metadata ring ends empty and the published frame count is 5), yet the
published timestamp is 5 (the second packet's), not 0. -/
theorem claim2_counterexample :
    (runEvents cx2P (initState cx2P) cx2Trace).infoOutBuffer = [⟨5, 5⟩] ∧
      (runEvents cx2P (initState cx2P) cx2Trace).infoBuffer = [] ∧
      (runEvents cx2P (initState cx2P) cx2Trace).infoOutBuffer ≠ [⟨5, 0⟩] := by
  decide

/-- Claim C2 (amended): the published PacketInfo carries the window's drained
frame count together with the timestamp of the first *nonzero*-timestamped
packet among those examined by the drain loop (the pushed-back packet
included), and 0 when all examined timestamps are 0.  A leading packet with
timestamp 0 is thus overridden by the next nonzero timestamp. -/
theorem claim2_amended (P : Params) (dur : Nat) (vsp : Bool) (res : DetectionResult)
    (st : CSState) :
    (windowStepC P dur vsp res st).infoOutBuffer
      = st.infoOutBuffer
        ++ [⟨(drainInfos (neededFrames P st) st.infoBuffer 0 0).1,
            firstNonzeroTs (st.infoBuffer.take
              (consumeCount (neededFrames P st) st.infoBuffer 0 + 1))⟩] := by
  have h := drainInfos_ts (neededFrames P st) st.infoBuffer 0 0
  rw [if_pos rfl] at h
  simp only [windowStepC, h]

/-- Claim C3, as stated, is false: the FILLER replacement writes snapshot
indices `[0, num_new)`, which *includes* the overlap head.  In the second
window of this reachable trace (`overlap_frames = 3`, `num_new = 1`,
snapshot `[2,3,4,5]`) the transform rewrites the head sample 2 to 0; the
trace's published stream ends with that zero in place of the re-emitted
head sample. -/
theorem claim3_counterexample :
    applyTransform cx3P DetectionResult.FILLER 1 [2, 3, 4, 5] = [0, 3, 4, 5] ∧
      (applyTransform cx3P DetectionResult.FILLER 1 [2, 3, 4, 5]).take 3 ≠ [2, 3, 4] ∧
      (chanOf (runEvents cx3P (initState cx3P) cx3Trace) 0).outputBuf
        = [1, 2, 3, 4, 0] := by
  decide

/-- Claim C3 (amended): with `do_silence` on, the FILLER/BEEP replacement
overwrites exactly the first `num_new_frames` samples of the snapshot —
overlap head included — and leaves the final `last_num_frames - num_new`
samples (the tail of the fresh data, i.e. the next window's overlap source)
unchanged, for every channel. -/
theorem claim3_amended (P : Params) (n : Nat) (snap : List Sample)
    (h : P.doSilence = true) :
    applyTransform P DetectionResult.FILLER n snap
        = List.replicate (min n snap.length) 0 ++ snap.drop n ∧
      applyTransform P DetectionResult.BEEP n snap
        = ((List.range (min n snap.length)).map P.beepVal) ++ snap.drop n := by
  constructor
  · simp only [applyTransform, if_pos h]
    rw [mapIdx_ite_lt (fun _ => (0 : Sample)) snap n]
    congr 1
    rw [show (fun _ : Nat => (0 : Sample)) = Function.const Nat (0 : Sample) from rfl,
      List.map_const, List.length_range]
  · simp only [applyTransform, if_pos h]
    exact mapIdx_ite_lt P.beepVal snap n

/-- Witness for the amended claim C3 at a concrete snapshot. -/
theorem claim3_witness :
    cx3P.doSilence = true ∧
      applyTransform cx3P DetectionResult.FILLER 1 [2, 3, 4, 5]
        = List.replicate (min 1 ([(2 : Sample), 3, 4, 5]).length) 0
            ++ ([(2 : Sample), 3, 4, 5]).drop 1 :=
  ⟨rfl, (claim3_amended cx3P 1 [2, 3, 4, 5] rfl).1⟩

/-- Claim C4's reference recurrence over the original samples and the code
disagree (code bug): because the loop writes `pcmf32[i]` before reading it
back as `pcmf32[i-1]` in the next iteration, the subtraction cancels the
accumulator and the code degenerates to `y[i] = alpha * x[i]`.  At input
`[0,1,0]` with `alpha = 1/2` the code stores `[0, 1/2, 0]` while claim C4's
recurrence requires `[0, 1/2, -1/4]`. -/
theorem claim4_divergence :
    high_pass_filter (1 / 2) [0, 1, 0] = [0, 1 / 2, 0] ∧
      highPassSpec (1 / 2) [0, 1, 0] = [0, 1 / 2, -(1 / 4)] ∧
      high_pass_filter (1 / 2) [0, 1, 0] ≠ highPassSpec (1 / 2) [0, 1, 0] := by
  refine ⟨?_, ?_, ?_⟩ <;> norm_num [high_pass_filter, highPassAux, highPassSpec,
    highPassSpecAux]

/-- No outcome of the beep block is FILLER. -/
lemma classifyBeep_ne_filler (P : Params) (t : String) :
    classifyBeep P t ≠ DetectionResult.FILLER := by
  simp only [classifyBeep]
  split
  · split
    · simp
    · split <;> simp
  · simp

/-- Claim C5: on a successful ASR call the classifier follows exactly the
order empty-text → SILENCE, filler-match → FILLER, beep-match → BEEP,
otherwise SPEECH (on the lowercased right-trimmed text, given both patterns
compile); and with an empty `detect_regex` no outcome whatsoever is FILLER. -/
theorem claim5 (P : Params) (s : String) (dm bm : String → Bool)
    (hd : P.compile P.detectRegex = some dm) (hb : P.compile P.beepRegex = some bm) :
    runWhisperInference P (AsrOutcome.ok s)
        = (if normalizeText s = "" then DetectionResult.SILENCE
           else if P.detectRegex ≠ "" ∧ dm (normalizeText s) then DetectionResult.FILLER
           else if P.beepRegex ≠ "" ∧ bm (normalizeText s) then DetectionResult.BEEP
           else DetectionResult.SPEECH) ∧
      ∀ (o : AsrOutcome), P.detectRegex = "" →
        runWhisperInference P o ≠ DetectionResult.FILLER := by
  constructor
  · by_cases h0 : normalizeText s = ""
    · simp [runWhisperInference, classifyText, h0]
    · simp only [runWhisperInference, classifyText, h0, if_neg h0, classifyBeep, hd, hb]
      by_cases hdr : P.detectRegex = "" <;>
        by_cases hdm : dm (normalizeText s) = true <;>
        by_cases hbr : P.beepRegex = "" <;>
        by_cases hbm : bm (normalizeText s) = true <;>
        simp_all
  · intro o hdr
    cases o with
    | ctxNull => simp [runWhisperInference]
    | exn => simp [runWhisperInference]
    | err k => simp [runWhisperInference]
    | ok s2 =>
      simp only [runWhisperInference, classifyText, hdr]
      split
      · simp
      · simp only [ne_eq, not_true_eq_false, if_false]
        exact classifyBeep_ne_filler P (normalizeText s2)

/-- Witness for claim C5: text "Uh " normalizes to "uh", matches the filler
pattern, and the classifier returns FILLER in the stated decision order. -/
theorem claim5_witness :
    w5P.compile w5P.detectRegex = some w5match ∧
      runWhisperInference w5P (AsrOutcome.ok "Uh ")
        = (if normalizeText "Uh " = "" then DetectionResult.SILENCE
           else if w5P.detectRegex ≠ "" ∧ w5match (normalizeText "Uh ")
             then DetectionResult.FILLER
           else if w5P.beepRegex ≠ "" ∧ w5match (normalizeText "Uh ")
             then DetectionResult.BEEP
           else DetectionResult.SPEECH) :=
  ⟨rfl, (claim5 w5P "Uh " w5match w5match rfl rfl).1⟩

/-- Claim C6, as stated, is false: a compile failure of the filler regex does
*not* let a matching beep regex yield BEEP.  The `regex_error` thrown by the
filler constructor propagates past the beep block to the catch, so the window
classifies as SPEECH although the beep pattern compiles and matches. -/
theorem claim6_counterexample :
    (cx6P.compile cx6P.detectRegex).isNone = true ∧
      (cx6P.compile cx6P.beepRegex).map (fun m => m "x") = some true ∧
      runWhisperInference cx6P (AsrOutcome.ok "x") = DetectionResult.SPEECH ∧
      runWhisperInference cx6P (AsrOutcome.ok "x") ≠ DetectionResult.BEEP := by
  decide

/-- Claim C6 (amended): a compile failure of the filler regex is caught
outside the whole regex block, so the window classifies as SPEECH — the beep
pattern is *not* evaluated — and the window is still classified and published
(publication does not depend on the classification); each later window calls
the regex constructor afresh. -/
theorem claim6_amended (P : Params) (s : String)
    (h1 : P.compile P.detectRegex = none) (h2 : P.detectRegex ≠ "")
    (h3 : normalizeText s ≠ "") :
    runWhisperInference P (AsrOutcome.ok s) = DetectionResult.SPEECH := by
  simp [runWhisperInference, classifyText, h3, h2, h1]

/-- Witness for the amended claim C6. -/
theorem claim6_witness :
    cx6P.compile cx6P.detectRegex = none ∧ cx6P.detectRegex ≠ "" ∧
      normalizeText "x" ≠ "" ∧
      runWhisperInference cx6P (AsrOutcome.ok "x") = DetectionResult.SPEECH :=
  ⟨rfl, by decide, by decide, claim6_amended cx6P "x" rfl (by decide) (by decide)⟩

/-- One controller update keeps `overlap_ms` in `[100, 2^64)` as long as the
window carries at least 134 ms of new data (below 2^32 ms). -/
lemma updateOverlap_bounds (rate o f n dur : Nat) (skipped : Bool)
    (h1 : 100 ≤ o) (h2 : o < 2 ^ 64) (h3 : 134 ≤ n) (h4 : n < 2 ^ 32) :
    100 ≤ (updateOverlap rate o f n dur skipped).1 ∧
      (updateOverlap rate o f n dur skipped).1 < 2 ^ 64 := by
  simp only [updateOverlap]
  split
  · constructor
    · exact Nat.le_max_right _ _
    · have hm : (o + (2 ^ 64 - 10)) % 2 ^ 64 < 2 ^ 64 := Nat.mod_lt _ (by norm_num)
      exact Nat.max_lt.mpr ⟨hm, by norm_num⟩
  · split
    · constructor
      · exact Nat.le_min.mpr ⟨by omega, by omega⟩
      · exact lt_of_le_of_lt (Nat.min_le_right _ _) (by omega)
    · exact ⟨h1, h2⟩

/-- Projection of the step's overlap update. -/
lemma windowStepC_overlapMs (P : Params) (dur : Nat) (vsp : Bool)
    (res : DetectionResult) (st : CSState) :
    (windowStepC P dur vsp res st).overlapMs
      = (updateOverlap P.sampleRate st.overlapMs st.overlapFrames (newMsOf P st) dur
          (P.vadEnabled && !vsp)).1 := rfl

/-- The run-level invariant behind the amended claim C7: along a trace whose
windows all carry at least 134 ms of new data, `overlap_ms` never leaves
`[100, 2^64)`. -/
lemma overlap_lower_invariant (P : Params) :
    ∀ (t : List Event) (st : CSState),
      wideWindowsTrace P t st = true → 100 ≤ st.overlapMs → st.overlapMs < 2 ^ 64 →
      ∀ s ∈ runStates P st t, 100 ≤ s.overlapMs
  | [], st, hok, h1, h2, s, hs => by
    simp only [runStates, List.mem_singleton] at hs
    exact hs ▸ h1
  | Event.push pkt :: r, st, hok, h1, h2, s, hs => by
    simp only [runStates, List.mem_cons] at hs
    rcases hs with rfl | hs
    · exact h1
    · exact overlap_lower_invariant P r _
        (by simpa [wideWindowsTrace] using hok)
        (by simpa [applyEvent, pushPacket] using h1)
        (by simpa [applyEvent, pushPacket] using h2) s hs
  | Event.window d v a :: r, st, hok, h1, h2, s, hs => by
    simp only [wideWindowsTrace, Bool.and_eq_true, decide_eq_true_eq] at hok
    obtain ⟨hms, hrest⟩ := hok
    simp only [runStates, List.mem_cons] at hs
    rcases hs with rfl | hs
    · exact h1
    · have hnew : newMsOf P st < 2 ^ 32 :=
        lt_of_le_of_lt (Nat.div_le_self _ _) (Nat.mod_lt _ (by norm_num))
      have hb := updateOverlap_bounds P.sampleRate st.overlapMs st.overlapFrames
        (newMsOf P st) d (P.vadEnabled && !v) h1 h2 hms hnew
      refine overlap_lower_invariant P r _ hrest ?_ ?_ s hs
      · rw [applyEvent, windowStepC_overlapMs]
        exact hb.1
      · rw [applyEvent, windowStepC_overlapMs]
        exact hb.2

/-- Claim C7, as stated, is false: on this reachable trace from the source's
own initial 340 ms, the first (full, 1010 ms) window raises the overlap to
350 ms; the second window drains only 120 ms of new data, so the increase
branch clamps `overlap_ms` to `0.75 * 120 = 90 < 100`. -/
theorem claim7_counterexample :
    (initState cx7P).overlapMs = 340 ∧
      (runEvents cx7P (initState cx7P) cx7Trace).overlapMs = 90 ∧
      ¬ 100 ≤ (runEvents cx7P (initState cx7P) cx7Trace).overlapMs := by
  decide

/-- Claim C7 (amended): the lower bound 100 holds only while every window
carries at least 134 ms of new data — then every reachable `overlap_ms`
starting from a value ≥ 100 (such as 340) stays ≥ 100, the decrease step
`max(overlap_ms - 10, 100)` never underflows, and after any window taking the
increase branch `overlap_ms ≤ floor(0.75 * new_ms)` for that window; with
narrower windows the increase clamp itself can push `overlap_ms` below
100, to `floor(0.75 * new_ms)`. -/
theorem claim7_amended (P : Params) (t : List Event)
    (h1 : wideWindowsTrace P t (initState P) = true) (h2 : 100 ≤ P.overlapMs0)
    (h3 : P.overlapMs0 < 2 ^ 64) :
    (∀ s ∈ runStates P (initState P) t, 100 ≤ s.overlapMs) ∧
      ∀ (o f n dur : Nat), dur ≤ n →
        (updateOverlap P.sampleRate o f n dur false).1 ≤ n * 3 / 4 := by
  constructor
  · exact overlap_lower_invariant P t (initState P) h1 h2 h3
  · intro o f n dur hd
    simp only [updateOverlap, if_neg (by omega : ¬ n < dur), Bool.not_false, if_pos rfl]
    exact Nat.min_le_right _ _

/-- Witness for the amended claim C7 on a full-width one-window trace. -/
theorem claim7_witness :
    wideWindowsTrace cx7P w7Trace (initState cx7P) = true ∧
      100 ≤ (runEvents cx7P (initState cx7P) w7Trace).overlapMs :=
  ⟨by decide,
    (claim7_amended cx7P w7Trace (by decide) (by decide) (by decide)).1 _
      (runEvents_mem_runStates cx7P w7Trace (initState cx7P))⟩

/-- A classification equal to UNKNOWN, SILENCE or SPEECH leaves the snapshot
untouched. -/
lemma applyTransform_id (P : Params) (res : DetectionResult) (n : Nat)
    (snap : List Sample)
    (h : res = DetectionResult.UNKNOWN ∨ res = DetectionResult.SILENCE ∨
      res = DetectionResult.SPEECH) :
    applyTransform P res n snap = snap := by
  rcases h with rfl | rfl | rfl <;> rfl

/-- Claim C8: a nonzero ASR return code classifies as UNKNOWN, the step it
drives is the very same state transformation as a SPEECH window, and that
step publishes the snapshot prefix unmodified on every channel. -/
theorem claim8 (P : Params) (dur : Nat) (vsp : Bool) (k : Int) (st : CSState) :
    runWhisperInference P (AsrOutcome.err k) = DetectionResult.UNKNOWN ∧
      applyEvent P st (Event.window dur vsp (AsrOutcome.err k))
        = windowStepC P dur vsp DetectionResult.SPEECH st ∧
      (windowStepC P dur vsp DetectionResult.SPEECH st).chans
        = st.chans.map (fun ch =>
            let ch2 := chanAssemble st.lastNumFrames st.overlapFrames
              (drainInfos (neededFrames P st) st.infoBuffer 0 0).1 ch
            { ch2 with outputBuf := ch2.outputBuf
                ++ ch2.copyBuf.take (drainInfos (neededFrames P st) st.infoBuffer 0 0).1 }) := by
  have hu : ∀ (n : Nat) (snap : List Sample),
      applyTransform P DetectionResult.UNKNOWN n snap = snap := fun _ _ => rfl
  have hs : ∀ (n : Nat) (snap : List Sample),
      applyTransform P DetectionResult.SPEECH n snap = snap := fun _ _ => rfl
  refine ⟨rfl, ?_, ?_⟩
  · show windowStepC P dur vsp DetectionResult.UNKNOWN st
      = windowStepC P dur vsp DetectionResult.SPEECH st
    simp only [windowStepC, hu, hs]
  · simp only [windowStepC, hs, ite_self]

/-- Claim C10: a null whisper context classifies as UNKNOWN without any call
to the ASR, and an UNKNOWN window still publishes its metadata and the
snapshot prefix unmodified on every channel. -/
theorem claim10 (P : Params) (dur : Nat) (vsp : Bool) (st : CSState) :
    runWhisperInference P AsrOutcome.ctxNull = DetectionResult.UNKNOWN ∧
      applyEvent P st (Event.window dur vsp AsrOutcome.ctxNull)
        = windowStepC P dur vsp DetectionResult.UNKNOWN st ∧
      (windowStepC P dur vsp DetectionResult.UNKNOWN st).chans
        = st.chans.map (fun ch =>
            let ch2 := chanAssemble st.lastNumFrames st.overlapFrames
              (drainInfos (neededFrames P st) st.infoBuffer 0 0).1 ch
            { ch2 with outputBuf := ch2.outputBuf
                ++ ch2.copyBuf.take (drainInfos (neededFrames P st) st.infoBuffer 0 0).1 }) ∧
      (windowStepC P dur vsp DetectionResult.UNKNOWN st).infoOutBuffer
        = st.infoOutBuffer
          ++ [⟨(drainInfos (neededFrames P st) st.infoBuffer 0 0).1,
              (drainInfos (neededFrames P st) st.infoBuffer 0 0).2.1⟩] := by
  have hu : ∀ (n : Nat) (snap : List Sample),
      applyTransform P DetectionResult.UNKNOWN n snap = snap := fun _ _ => rfl
  refine ⟨rfl, rfl, ?_, rfl⟩
  simp only [windowStepC, hu, ite_self]

/-- Claim C9: the drain loop consumes exactly the maximal in-budget prefix of
the input metadata ring; the straddling packet is left (fields unchanged) at
the front of the remaining ring, its frames are excluded from the drained
count, the count never exceeds the target, the loop stops exactly when the
next packet would overshoot, and only the drained count of samples is popped
from each channel's PCM ring. -/
theorem claim9 (needed : Nat) (l : List PacketInfo) :
    (drainInfos needed l 0 0).2.2 = l.drop (consumeCount needed l 0) ∧
      (drainInfos needed l 0 0).1 = sumFrames (l.take (consumeCount needed l 0)) ∧
      (drainInfos needed l 0 0).1 ≤ needed ∧
      (∀ p, (l.drop (consumeCount needed l 0)).head? = some p →
        needed < (drainInfos needed l 0 0).1 + p.frames) ∧
      ∀ (L v : Nat) (ch : ChanState),
        (chanAssemble L v (drainInfos needed l 0 0).1 ch).inputBuf
          = ch.inputBuf.drop (drainInfos needed l 0 0).1 := by
  refine ⟨drainInfos_rest needed l 0 0, ?_, drainInfos_le needed l 0 0 (Nat.zero_le _),
    ?_, ?_⟩
  · rw [drainInfos_frames]
    omega
  · intro p hp
    have hstop := drainInfos_stop needed l 0 p hp
    rw [drainInfos_frames]
    omega
  · intro L v ch
    rw [chanAssemble]
    split <;> rfl

/-- Witness for claim C9: with a 3-frame budget, the 2-frame packet is
consumed and the 4-frame packet is pushed back intact. -/
theorem claim9_witness :
    (drainInfos 3 [⟨2, 5⟩, ⟨4, 7⟩] 0 0).2.2 = [⟨4, 7⟩] ∧
      3 < (drainInfos 3 [⟨2, 5⟩, ⟨4, 7⟩] 0 0).1 + 4 :=
  ⟨by decide, (claim9 3 [⟨2, 5⟩, ⟨4, 7⟩]).2.2.2.1 ⟨4, 7⟩ (by decide)⟩

end CleanStream
